import Mathlib

/-!
Verification development for the film-creative-rag repository.

Shallow embedding of the pure cores of:
  * `FilmRAGCore.chunk_screenplay` and `FilmRAGCore.extract_entities`
    (src/rag_core/film_rag_engine.py),
  * `FilmRAGCore.query` and `FilmChatSystem.generate_response`
    (response handling; the HTTP request itself is abstracted as an outcome),
  * `MoodBoardExtractor.extract_from_pdf` (src/moodboard/image_processing/pdf_extractor.py),
  * `VisualMoodAnalyzer.analyze_brightness` (src/moodboard/visual_analysis/mood_analyzer.py),
  * the knowledge-store persistence of `add_screenplay` / `add_mood_board` /
    `save_knowledge_store`.

Python string primitives (`strip`, `split`, `replace`, `startswith`, `isupper`,
the `in` substring test) are re-implemented by structural recursion on the
character list of a `String`, so that every definition evaluates inside the
kernel. `str.isupper()` is modelled as "has at least one letter and every
letter is uppercase" (Python's cased characters restricted to letters, exact on
ASCII input). Python `set` objects are modelled as insertion-ordered
duplicate-free lists, and Python `dict` objects as insertion-ordered
association lists.
-/

/-- Python `str.isspace` on a character (ASCII whitespace). -/
def pyIsSpace (c : Char) : Bool :=
  c = ' ' || c = '\t' || c = '\n' || c = '\r' || c = '\x0b' || c = '\x0c'

/-- Characters of a string stripped of leading and trailing whitespace. -/
def pyStripList (l : List Char) : List Char :=
  ((l.dropWhile pyIsSpace).reverse.dropWhile pyIsSpace).reverse

/-- Python `str.strip()`. -/
def pyStrip (s : String) : String :=
  ⟨pyStripList s.data⟩

/-- Prefix test on character lists. -/
def isPrefList : List Char → List Char → Bool
  | [], _ => true
  | _ :: _, [] => false
  | p :: ps, c :: cs => p = c && isPrefList ps cs

/-- Python `str.startswith(p)`. -/
def pyStartsWith (s p : String) : Bool :=
  isPrefList p.data s.data

/-- Python `w in s` substring test on character lists. -/
def occursIn (p : List Char) : List Char → Bool
  | [] => p.isEmpty
  | c :: rest => isPrefList p (c :: rest) || occursIn p rest

/-- Python `w in s` substring test. -/
def pyInStr (w s : String) : Bool :=
  occursIn w.data s.data

/-- Split a character list at every character satisfying `sep`, keeping empty
pieces (the behaviour of Python `str.split(sep)` for a one-character `sep`,
and the piece structure underlying `str.split()`). -/
def splitIf (sep : Char → Bool) : List Char → List (List Char)
  | [] => [[]]
  | c :: rest =>
    if sep c then [] :: splitIf sep rest
    else
      match splitIf sep rest with
      | [] => [[c]]
      | p :: ps => (c :: p) :: ps

/-- Python `s.split(sep)` for a one-character separator. -/
def pySplitChar (s : String) (sep : Char) : List String :=
  (splitIf (· = sep) s.data).map fun l => ⟨l⟩

/-- Python `str.split()` with no argument: split on whitespace runs, dropping
empty pieces. -/
def pyWords (s : String) : List String :=
  ((splitIf pyIsSpace s.data).filter (· ≠ [])).map fun l => ⟨l⟩

/-- Left-to-right non-overlapping replacement of the non-empty pattern `p` by
`r`, with enough fuel to scan the whole list (Python `str.replace` for a
non-empty pattern). -/
def replaceAux (p r : List Char) : Nat → List Char → List Char
  | _, [] => []
  | 0, l => l
  | fuel + 1, c :: rest =>
    if isPrefList p (c :: rest) then
      r ++ replaceAux p r fuel (List.drop (p.length - 1) rest)
    else
      c :: replaceAux p r fuel rest

/-- Python `s.replace(p, r)` for a non-empty pattern `p`. -/
def pyReplace (s p r : String) : String :=
  ⟨replaceAux p.data r.data s.data.length s.data⟩

/-- Python `str.isupper()`: at least one cased character, and every cased
character is uppercase (cased = letter, exact on ASCII). -/
def pyIsUpper (s : String) : Bool :=
  s.data.any (·.isAlpha) && s.data.all (fun c => !c.isAlpha || c.isUpper)

/-- Python `len(s)`. -/
def pyLen (s : String) : Nat :=
  s.data.length

/-- Python `set.add` on an insertion-ordered duplicate-free list. -/
def setAdd (l : List String) (x : String) : List String :=
  if x ∈ l then l else l ++ [x]

/-- One chunk produced by `FilmRAGCore.chunk_screenplay`: the dict
`{"content": …, "scene_header": …, "characters": …, "scene_number": …,
"chunk_type": "scene"}`. -/
structure Chunk where
  content : String
  scene_header : String
  characters : List String
  scene_number : Nat
  chunk_type : String
deriving DecidableEq, Repr

/-- Loop state of `FilmRAGCore.chunk_screenplay`: the four mutable locals plus
the chunks emitted so far. -/
structure ChunkState where
  current_scene : String
  current_chunk : String
  current_characters : List String
  scene_count : Nat
  chunks : List Chunk
deriving DecidableEq, Repr

/-- Initial loop state of `chunk_screenplay`. -/
def initChunkState : ChunkState :=
  { current_scene := "", current_chunk := "", current_characters := [],
    scene_count := 0, chunks := [] }

/-- Scene-break test of `chunk_screenplay` (film_rag_engine.py line 53):
`line.startswith(('INT.', 'EXT.', 'FADE IN', 'FADE OUT'))`. -/
def sceneBoundary (line : String) : Bool :=
  pyStartsWith line "INT." || pyStartsWith line "EXT." ||
  pyStartsWith line "FADE IN" || pyStartsWith line "FADE OUT"

/-- Character-cue test of `chunk_screenplay` (film_rag_engine.py line 69):
`line.isupper() and len(line.split()) <= 3 and line`. -/
def isCharacterCue (line : String) : Bool :=
  pyIsUpper line && decide ((pyWords line).length ≤ 3) && decide (line ≠ "")

/-- The chunk dict built from the current loop state (film_rag_engine.py
lines 55-61 and 78-84). -/
def mkChunk (s : ChunkState) : Chunk :=
  { content := pyStrip s.current_chunk, scene_header := s.current_scene,
    characters := s.current_characters, scene_number := s.scene_count,
    chunk_type := "scene" }

/-- One iteration of the `for line in lines` loop of `chunk_screenplay`
(film_rag_engine.py lines 49-74). -/
def chunkStep (s : ChunkState) (rawLine : String) : ChunkState :=
  let line := pyStrip rawLine
  if sceneBoundary line then
    { current_scene := line,
      current_chunk := line ++ "\n",
      current_characters := [],
      scene_count := s.scene_count + 1,
      chunks := if pyStrip s.current_chunk = "" then s.chunks
                else s.chunks ++ [mkChunk s] }
  else if isCharacterCue line then
    { s with current_characters := setAdd s.current_characters line,
             current_chunk := s.current_chunk ++ line ++ "\n" }
  else
    { s with current_chunk := s.current_chunk ++ line ++ "\n" }

/-- The loop of `chunk_screenplay` followed by the final-chunk emission
(film_rag_engine.py lines 49-84), written as structural recursion over the
remaining lines. -/
def chunkLoop (s : ChunkState) : List String → List Chunk
  | [] => if pyStrip s.current_chunk = "" then s.chunks else s.chunks ++ [mkChunk s]
  | l :: ls => chunkLoop (chunkStep s l) ls

/-- `FilmRAGCore.chunk_screenplay` (film_rag_engine.py lines 39-86). The
`title` argument is unused, as in the source. -/
def chunk_screenplay (content : String) (title : String) : List Chunk :=
  chunkLoop initChunkState (pySplitChar content '\n')

/-- Keyword list of `ScreenplayParser.parse_screenplay`
(screenplay_engine.py line 38): transitions and directions filtered out of
character detection there. -/
def screenplayKeywords : List String :=
  ["FADE", "CUT", "INT.", "EXT.", "THE END"]

/-- `ScreenplayParser.parse_screenplay` result (screenplay_engine.py
lines 19-48). -/
structure ParsedScreenplay where
  characters : List String
  scenes : List String
  total_lines : Nat
deriving DecidableEq, Repr

/-- One iteration of the loop of `parse_screenplay` (screenplay_engine.py
lines 26-42), acting on the pair (characters, scenes). -/
def parseStep (st : List String × List String) (rawLine : String) :
    List String × List String :=
  let line := pyStrip rawLine
  if line = "" then st
  else if pyStartsWith line "INT." || pyStartsWith line "EXT." then
    (st.1, st.2 ++ [line])
  else if pyIsUpper line && decide ((pyWords line).length ≤ 3) &&
      decide (1 < pyLen line) then
    if screenplayKeywords.any (fun w => pyInStr w line) then st
    else
      let char_name := pyStrip ((pySplitChar line '(').headD "")
      if char_name = "" then st else (setAdd st.1 char_name, st.2)
  else st

/-- `ScreenplayParser.parse_screenplay` (screenplay_engine.py lines 19-48). -/
def parse_screenplay (content : String) : ParsedScreenplay :=
  let lines := pySplitChar (pyStrip content) '\n'
  let st := lines.foldl parseStep ([], [])
  { characters := st.1, scenes := st.2, total_lines := lines.length }

/-- Per-character record of `FilmRAGCore.extract_entities`: the dict
`{"mentions": …, "scenes": […]}`. -/
structure CharEntry where
  mentions : Nat
  scenes : List Nat
deriving DecidableEq, Repr

/-- Per-location record of `FilmRAGCore.extract_entities`: the dict
`{"type": "location", "scenes": […]}`. -/
structure LocEntry where
  loc_type : String
  scenes : List Nat
deriving DecidableEq, Repr

/-- Result of `FilmRAGCore.extract_entities`: the two dicts, as
insertion-ordered association lists. -/
structure Entities where
  characters : List (String × CharEntry)
  locations : List (String × LocEntry)
deriving DecidableEq, Repr

/-- Dict lookup on an association list (Python `d[k]` / `k in d`). -/
def alookup (k : String) : List (String × α) → Option α
  | [] => none
  | (k', v) :: rest => if k' = k then some v else alookup k rest

/-- In-place update of the entry at key `c` (Python mutation of `d[c]`):
`mentions += 1` and `scenes.append(n)` (film_rag_engine.py lines 100-101). -/
def bumpChar (c : String) (n : Nat) : List (String × CharEntry) → List (String × CharEntry)
  | [] => []
  | (k, e) :: rest =>
    if k = c then (k, { mentions := e.mentions + 1, scenes := e.scenes ++ [n] }) :: rest
    else (k, e) :: bumpChar c n rest

/-- Processing of one character of a chunk (film_rag_engine.py lines 94-101):
insert `{"mentions": 0, "scenes": []}` when absent, then increment and append
the scene number. -/
def charStep (m : List (String × CharEntry)) (c : String) (n : Nat) :
    List (String × CharEntry) :=
  let m1 := if (alookup c m).isNone then m ++ [(c, { mentions := 0, scenes := [] })] else m
  bumpChar c n m1

/-- Location name derived from a scene header (film_rag_engine.py line 106):
`scene_header.replace("INT.", "").replace("EXT.", "").split("-")[0].strip()`. -/
def locationOf (scene_header : String) : String :=
  pyStrip ((pySplitChar (pyReplace (pyReplace scene_header "INT." "") "EXT." "") '-').headD "")

/-- Processing of one chunk's scene header (film_rag_engine.py lines 103-111):
a location is inserted with a singleton scene list only when the header is
non-empty, the derived name is non-empty and the name is not yet present. -/
def locStep (m : List (String × LocEntry)) (scene_header : String) (n : Nat) :
    List (String × LocEntry) :=
  if scene_header = "" then m
  else
    let location := locationOf scene_header
    if location ≠ "" ∧ (alookup location m).isNone then
      m ++ [(location, { loc_type := "location", scenes := [n] })]
    else m

/-- Processing of one chunk by `extract_entities` (film_rag_engine.py
lines 92-111): all its characters, then its scene header. -/
def entityStep (ent : Entities) (ch : Chunk) : Entities :=
  { characters := ch.characters.foldl (fun m c => charStep m c ch.scene_number) ent.characters,
    locations := locStep ent.locations ch.scene_header ch.scene_number }

/-- `FilmRAGCore.extract_entities` (film_rag_engine.py lines 88-113). -/
def extract_entities (chunks : List Chunk) : Entities :=
  chunks.foldl entityStep { characters := [], locations := [] }

/-- Outcome of one HTTP POST to Ollama, as the exception-free abstraction used
by `query` and `generate_response`: a response with its status code and the
optional `"response"` field of its JSON body, or an exception raised anywhere
in the `try` block (connection error, timeout, non-JSON body, …). -/
inductive HttpOutcome where
  | response (status : Nat) (field : Option String)
  | exception (message : String)
deriving DecidableEq, Repr

/-- Response handling of `FilmRAGCore.query` (film_rag_engine.py
lines 187-196): the `"response"` field (default `"No response generated"`) on
status 200, `"Error querying LLM: <status>"` otherwise, `"Query error: <e>"`
when an exception is caught. -/
def query (outcome : HttpOutcome) : String :=
  match outcome with
  | .response status field =>
    if status = 200 then field.getD "No response generated"
    else "Error querying LLM: " ++ toString status
  | .exception e => "Query error: " ++ e

/-- Return dict of `FilmChatSystem.generate_response` (film_chat.py
lines 74-93): the three branches carry different key sets, modelled with
`Option` fields. -/
structure ChatResponse where
  content : String
  status : String
  has_rag_context : Option Bool
  error : Option String
deriving DecidableEq, Repr

/-- Response handling of `FilmChatSystem.generate_response` (film_chat.py
lines 72-93). -/
def generate_response (rag_context : String) (outcome : HttpOutcome) : ChatResponse :=
  match outcome with
  | .response status field =>
    if status = 200 then
      { content := field.getD "No response", status := "success",
        has_rag_context := some (rag_context ≠ ""), error := none }
    else
      { content := "I\x27m having trouble responding right now.", status := "error",
        has_rag_context := none, error := some ("LLM error: " ++ toString status) }
  | .exception e =>
    { content := "I\x27m experiencing technical difficulties.", status := "error",
      has_rag_context := none, error := some e }

/-- One text span of a PDF page, as read by `extract_from_pdf`
(pdf_extractor.py lines 76-86). -/
structure PdfSpan where
  text : String
  font : String
  size : Nat
deriving DecidableEq, Repr

/-- One page of a PDF, as read by `extract_from_pdf`: the image extensions
returned by `page.get_images` / `extract_image`, and the text spans of the
blocks that carry lines. -/
structure PdfPage where
  images : List String
  spans : List PdfSpan
deriving DecidableEq, Repr

/-- One extracted-image record of `extract_from_pdf`
(pdf_extractor.py lines 58-68). -/
structure ImageRecord where
  filename : String
  page : Nat
deriving DecidableEq, Repr

/-- One text-annotation record of `extract_from_pdf`
(pdf_extractor.py lines 80-86). -/
structure TextRecord where
  text : String
  font : String
  size : Nat
deriving DecidableEq, Repr

/-- The `extracted_data` dict of `MoodBoardExtractor`
(pdf_extractor.py lines 20-24 and 92-98). -/
structure ExtractedData where
  images : List ImageRecord
  text_records : List TextRecord
  source_pdf : String
  project_name : String
  total_pages : Nat
  total_images : Nat
  extraction_complete : Bool
deriving DecidableEq, Repr

/-- Image records of one page (pdf_extractor.py lines 50-70): filenames are
`page_<p+1>_image_<i+1>.<ext>`. -/
def pageImageRecords (pageNum : Nat) (p : PdfPage) : List ImageRecord :=
  (List.range p.images.length).zip p.images |>.map fun (i, ext) =>
    { filename := "page_" ++ toString (pageNum + 1) ++ "_image_" ++
        toString (i + 1) ++ "." ++ ext,
      page := pageNum + 1 }

/-- Text annotations of one page (pdf_extractor.py lines 72-89): the stripped
span texts that are non-empty of length above 3. -/
def pageTextRecords (p : PdfPage) : List TextRecord :=
  (p.spans.map fun sp => { text := pyStrip sp.text, font := sp.font, size := sp.size }).filter
    fun r => r.text ≠ "" ∧ 3 < pyLen r.text

/-- The `extracted_data` built by a successful run of `extract_from_pdf` over
the pages of the document (pdf_extractor.py lines 41-98). -/
def buildExtractedData (pdf_path project : String) (pages : List PdfPage) : ExtractedData :=
  { images := ((List.range pages.length).zip pages).flatMap fun (i, p) => pageImageRecords i p,
    text_records := pages.flatMap pageTextRecords,
    source_pdf := pdf_path,
    project_name := project,
    total_pages := pages.length,
    total_images := (((List.range pages.length).zip pages).flatMap
      fun (i, p) => pageImageRecords i p).length,
    extraction_complete := true }

/-- `MoodBoardExtractor.extract_from_pdf` (pdf_extractor.py lines 26-114): the
whole `try` body — opening the PDF with `fitz`, walking its pages, writing the
image files and the report — is abstracted as an `Except` outcome whose `ok`
value holds the pages read; any exception raised anywhere in the body is
caught by the blanket handler, which prints a message and returns `None`. -/
def extract_from_pdf (pdf_path project : String)
    (outcome : Except String (List PdfPage)) : Option ExtractedData :=
  match outcome with
  | .ok pages => some (buildExtractedData pdf_path project pages)
  | .error _ => none

/-- Brightness bucketing of `VisualMoodAnalyzer.analyze_brightness`
(mood_analyzer.py lines 114-119): strictly above 180 is `"high"`, strictly
below 70 is `"low"`, everything else — the boundaries included — `"medium"`. -/
def brightnessLevel (b : ℚ) : String :=
  if b > 180 then "high" else if b < 70 then "low" else "medium"

/-- Mean of the grayscale pixel values (`np.mean(gray)`,
mood_analyzer.py line 112), over the rationals. -/
def meanGray (gray : List Nat) : ℚ :=
  (gray.map fun p => (p : ℚ)).sum / (gray.length : ℚ)

/-- `VisualMoodAnalyzer.analyze_brightness` (mood_analyzer.py lines 108-122)
on the grayscale pixel list of the image: the returned dict
`{"level": …, "value": …}`. The BGR-to-grayscale conversion is library code
(`cv2.cvtColor`) and is abstracted by taking the grayscale pixels directly. -/
def analyze_brightness (gray : List Nat) : String × ℚ :=
  (brightnessLevel (meanGray gray), meanGray gray)

/-- Metadata of a stored screenplay (film_rag_engine.py lines 130-134). -/
structure ScreenplayMeta where
  total_chunks : Nat
  total_characters : Nat
  total_locations : Nat
deriving DecidableEq, Repr

/-- A stored screenplay entry (film_rag_engine.py lines 126-135). -/
structure ScreenplayEntry where
  content : String
  chunks : List Chunk
  entities : Entities
  metadata : ScreenplayMeta
deriving DecidableEq, Repr

/-- The `visual_data` dict handed to `add_mood_board`, restricted to the keys
it reads (film_rag_engine.py lines 150-152). -/
structure VisualData where
  images_found : Nat
  color_palettes : List String
  style_elements : List String
deriving DecidableEq, Repr

/-- Metadata of a stored mood board (film_rag_engine.py lines 149-153). -/
structure MoodBoardMeta where
  images_count : Nat
  color_palettes : Nat
  style_elements : Nat
deriving DecidableEq, Repr

/-- A stored mood-board entry (film_rag_engine.py lines 147-154). -/
structure MoodBoardEntry where
  visual_data : VisualData
  metadata : MoodBoardMeta
deriving DecidableEq, Repr

/-- The in-memory `knowledge_store` dict (film_rag_engine.py lines 33-37). -/
structure KnowledgeStore where
  screenplays : List (String × ScreenplayEntry)
  mood_boards : List (String × MoodBoardEntry)
  relationships : List String
deriving DecidableEq, Repr

/-- Python `d[k] = v` on a dict: replace in place when the key is present,
append otherwise. -/
def dictInsert (m : List (String × α)) (k : String) (v : α) : List (String × α) :=
  if (alookup k m).isSome then m.map (fun p => if p.1 = k then (k, v) else p)
  else m ++ [(k, v)]

/-- State of a `FilmRAGCore` instance together with its persistence file:
the in-memory store and the contents of `knowledge_store.json` on disk
(`none` when the file has not been written yet). -/
structure SystemState where
  store : KnowledgeStore
  disk : Option KnowledgeStore
deriving DecidableEq, Repr

/-- `FilmRAGCore.save_knowledge_store` (film_rag_engine.py lines 216-220):
`json.dump(self.knowledge_store, f)` serializes the whole in-memory dict. -/
def save_knowledge_store (st : SystemState) : SystemState :=
  { st with disk := some st.store }

/-- `FilmRAGCore.add_screenplay` (film_rag_engine.py lines 115-141): chunk,
extract entities, store the entry, save the whole store, return the
metadata. -/
def add_screenplay (st : SystemState) (content title : String) :
    SystemState × ScreenplayMeta :=
  let chunks := chunk_screenplay content title
  let entities := extract_entities chunks
  let meta : ScreenplayMeta :=
    { total_chunks := chunks.length,
      total_characters := entities.characters.length,
      total_locations := entities.locations.length }
  let entry : ScreenplayEntry :=
    { content := content, chunks := chunks, entities := entities, metadata := meta }
  let st1 : SystemState :=
    { st with store := { st.store with
        screenplays := dictInsert st.store.screenplays title entry } }
  (save_knowledge_store st1, meta)

/-- `FilmRAGCore.add_mood_board` (film_rag_engine.py lines 143-159). -/
def add_mood_board (st : SystemState) (visual_data : VisualData)
    (project_name : String) : SystemState × MoodBoardMeta :=
  let meta : MoodBoardMeta :=
    { images_count := visual_data.images_found,
      color_palettes := visual_data.color_palettes.length,
      style_elements := visual_data.style_elements.length }
  let entry : MoodBoardEntry := { visual_data := visual_data, metadata := meta }
  let st1 : SystemState :=
    { st with store := { st.store with
        mood_boards := dictInsert st.store.mood_boards project_name entry } }
  (save_knowledge_store st1, meta)

/-- Mention count recorded for character `c` (0 when absent). -/
def mentionsOf (m : List (String × CharEntry)) (c : String) : Nat :=
  match alookup c m with
  | some e => e.mentions
  | none => 0

/-- Scene list recorded for character `c` (`[]` when absent). -/
def scenesOf (m : List (String × CharEntry)) (c : String) : List Nat :=
  match alookup c m with
  | some e => e.scenes
  | none => []

/-- Two-scene sample screenplay used to instantiate proved theorems on
concrete input. -/
def sampleScreenplay : String :=
  "INT. LAB - DAY\nALICE\nhi\nEXT. STREET - NIGHT\nALICE\nBOB\nyo"


/-- Helper: bucketing of `analyze_brightness` as a function of the mean. -/
theorem brightnessLevel_spec (b : ℚ) :
    (brightnessLevel b = "high" ↔ 180 < b) ∧
    (brightnessLevel b = "low" ↔ b < 70) ∧
    (brightnessLevel b = "medium" ↔ 70 ≤ b ∧ b ≤ 180) := by
  unfold brightnessLevel
  split_ifs with h1 h2
  · exact ⟨iff_of_true rfl h1,
      iff_of_false (by decide) (by linarith),
      iff_of_false (by decide) (fun h => by linarith [h.2])⟩
  · exact ⟨iff_of_false (by decide) h1,
      iff_of_true rfl h2,
      iff_of_false (by decide) (fun h => by linarith [h.1])⟩
  · exact ⟨iff_of_false (by decide) h1,
      iff_of_false (by decide) h2,
      iff_of_true rfl ⟨not_lt.mp h2, not_lt.mp h1⟩⟩

/-- C7: `analyze_brightness` computes the mean grayscale value and returns
bucket `"high"` iff that mean is strictly above 180, `"low"` iff it is
strictly below 70, and `"medium"` otherwise; the boundary values 180 and 70
are classified `"medium"`. -/
theorem brightness_thresholds (gray : List Nat) :
    (analyze_brightness gray).2 = meanGray gray ∧
    ((analyze_brightness gray).1 = "high" ↔ 180 < meanGray gray) ∧
    ((analyze_brightness gray).1 = "low" ↔ meanGray gray < 70) ∧
    ((analyze_brightness gray).1 = "medium" ↔ 70 ≤ meanGray gray ∧ meanGray gray ≤ 180) ∧
    brightnessLevel 180 = "medium" ∧ brightnessLevel 70 = "medium" := by
  obtain ⟨h1, h2, h3⟩ := brightnessLevel_spec (meanGray gray)
  refine ⟨rfl, h1, h2, h3, ?_, ?_⟩
  · obtain ⟨-, -, h⟩ := brightnessLevel_spec 180
    exact h.mpr (by norm_num)
  · obtain ⟨-, -, h⟩ := brightnessLevel_spec 70
    exact h.mpr (by norm_num)

/-- C8: after `add_screenplay` and after `add_mood_board`, the whole in-memory
knowledge store has been serialized to disk, so the on-disk store equals the
in-memory store at the end of each add operation. -/
theorem add_persists_whole_store (st : SystemState) (content title : String)
    (visual_data : VisualData) (project_name : String) :
    ((add_screenplay st content title).1).disk =
      some ((add_screenplay st content title).1).store ∧
    ((add_mood_board st visual_data project_name).1).disk =
      some ((add_mood_board st visual_data project_name).1).store := by
  exact ⟨rfl, rfl⟩

/-- C6: any exception raised during PDF extraction is caught by the blanket
handler of `extract_from_pdf`, which returns `None`; a run without exception
never returns `None`. -/
theorem extract_from_pdf_blanket_none (pdf_path project e : String) :
    extract_from_pdf pdf_path project (Except.error e) = none ∧
    ∀ pages : List PdfPage,
      (extract_from_pdf pdf_path project (Except.ok pages)).isSome = true := by
  exact ⟨rfl, fun _ => rfl⟩

/-- C4 counterexample: `MoodBoardExtractor.extract_from_pdf` signals a caught
exception by returning `None`, not a glyph-prefixed string; and the caught
exception of `FilmRAGCore.query` yields `"Query error: …"`, which does not
begin with the error glyph the code prints elsewhere. -/
theorem pdf_error_none_cex :
    extract_from_pdf "board.pdf" "mood_board" (Except.error "file corrupted") = none ∧
    query (HttpOutcome.exception "connection refused") = "Query error: connection refused" ∧
    pyStartsWith (query (HttpOutcome.exception "connection refused")) "❌" = false := by
  exact ⟨rfl, rfl, by decide⟩

/-- C4 amended: every caught exception produces a returned value, but the
form differs per operation: `query` returns the string `"Query error: <e>"`,
`generate_response` returns a dict with `status = "error"` and a plain content
string, and `extract_from_pdf` returns `None`. -/
theorem ops_exception_returns (e ctx path project : String) :
    query (HttpOutcome.exception e) = "Query error: " ++ e ∧
    (generate_response ctx (HttpOutcome.exception e)).status = "error" ∧
    (generate_response ctx (HttpOutcome.exception e)).content =
      "I\x27m experiencing technical difficulties." ∧
    (generate_response ctx (HttpOutcome.exception e)).error = some e ∧
    extract_from_pdf path project (Except.error e) = none := by
  exact ⟨rfl, rfl, rfl, rfl, rfl⟩

/-- C5 counterexample: the second LLM invocation the claim covers,
`FilmChatSystem.generate_response`, does not return a hardcoded error string
on a non-200 response — it returns a dict (film_chat.py lines 81-86, modelled
by `ChatResponse`) whose user-facing `content` is a fixed sentence different
from the error string, which appears only under the dict's `"error"` key. -/
theorem generate_response_dict_cex :
    generate_response "" (HttpOutcome.response 502 none) =
      { content := "I\x27m having trouble responding right now.", status := "error",
        has_rag_context := none, error := some ("LLM error: " ++ toString 502) } ∧
    (generate_response "" (HttpOutcome.response 502 none)).content ≠
      "LLM error: " ++ toString 502 := by
  exact ⟨rfl, by decide⟩

/-- C5 amended: `FilmRAGCore.query` returns the `"response"` text field of the
body when the HTTP status is 200 (with the hardcoded default when the field is
missing), the hardcoded error string `"Error querying LLM: <status>"` on any
non-200 response, and `"Query error: <e>"` on any exception;
`FilmChatSystem.generate_response` follows the same single-request pattern but
returns a dict: on 200 its content is the raw text field (default
`"No response"`) with status `"success"`, on any non-200 response or exception
its content is a hardcoded message with status `"error"` and the error detail
under its `"error"` key. Both embeddings consume a single HTTP outcome, so
there is no retry. -/
theorem llm_invocation_response (t e ctx : String) (status : Nat) (field : Option String) :
    query (HttpOutcome.response 200 (some t)) = t ∧
    query (HttpOutcome.response 200 none) = "No response generated" ∧
    (status ≠ 200 →
      query (HttpOutcome.response status field) = "Error querying LLM: " ++ toString status ∧
      generate_response ctx (HttpOutcome.response status field) =
        { content := "I\x27m having trouble responding right now.", status := "error",
          has_rag_context := none, error := some ("LLM error: " ++ toString status) }) ∧
    query (HttpOutcome.exception e) = "Query error: " ++ e ∧
    generate_response ctx (HttpOutcome.response 200 (some t)) =
      { content := t, status := "success",
        has_rag_context := some (decide (ctx ≠ "")), error := none } ∧
    generate_response ctx (HttpOutcome.response 200 none) =
      { content := "No response", status := "success",
        has_rag_context := some (decide (ctx ≠ "")), error := none } ∧
    generate_response ctx (HttpOutcome.exception e) =
      { content := "I\x27m experiencing technical difficulties.", status := "error",
        has_rag_context := none, error := some e } := by
  refine ⟨rfl, rfl, ?_, rfl, rfl, rfl, rfl⟩
  intro h
  constructor
  · simp only [query]
    rw [if_neg h]
  · simp only [generate_response]
    rw [if_neg h]

/-- Witness for C5 at a concrete non-200 status, for both operations. -/
theorem llm_invocation_response_w :
    query (HttpOutcome.response 500 none) = "Error querying LLM: " ++ toString 500 ∧
    generate_response "" (HttpOutcome.response 500 none) =
      { content := "I\x27m having trouble responding right now.", status := "error",
        has_rag_context := none, error := some ("LLM error: " ++ toString 500) } :=
  (llm_invocation_response "t" "e" "" 500 none).2.2.1 (by decide)

/-- C1 counterexample: the line `"FADE TO BLACK"` begins with the prefix
`FADE`, yet `chunk_screenplay` does not treat it as a scene boundary — the
input `"A\nFADE TO BLACK"` yields a single chunk with an empty scene header
(the line is even recorded as a character cue), instead of ending the current
chunk and starting a new one headed `"FADE TO BLACK"`. -/
theorem chunk_fade_prefix_cex :
    pyStartsWith "FADE TO BLACK" "FADE" = true ∧
    chunk_screenplay "A\nFADE TO BLACK" "T" =
      [{ content := "A\nFADE TO BLACK", scene_header := "",
         characters := ["A", "FADE TO BLACK"], scene_number := 0,
         chunk_type := "scene" }] := by
  decide

/-- C1 amended: every trimmed line that begins with `INT.`, `EXT.`, `FADE IN`
or `FADE OUT` (not the bare prefix `FADE`) is a scene boundary: the loop step
ends the current chunk — emitting it exactly when its stripped content is
non-empty — and starts a new chunk whose scene header is that line. -/
theorem chunk_boundary_step (s : ChunkState) (l : String)
    (h : pyStartsWith (pyStrip l) "INT." = true ∨
         pyStartsWith (pyStrip l) "EXT." = true ∨
         pyStartsWith (pyStrip l) "FADE IN" = true ∨
         pyStartsWith (pyStrip l) "FADE OUT" = true) :
    (chunkStep s l).current_scene = pyStrip l ∧
    (chunkStep s l).current_chunk = pyStrip l ++ "\n" ∧
    (chunkStep s l).current_characters = [] ∧
    (chunkStep s l).scene_count = s.scene_count + 1 ∧
    (chunkStep s l).chunks =
      (if pyStrip s.current_chunk = "" then s.chunks else s.chunks ++ [mkChunk s]) := by
  have hb : sceneBoundary (pyStrip l) = true := by
    unfold sceneBoundary
    rcases h with h | h | h | h <;> simp [h]
  simp [chunkStep, hb]

/-- Witness for C1 at a concrete boundary line and a state with pending
content. -/
theorem chunk_boundary_step_w :
    (chunkStep ⟨"", "hello\n", [], 0, []⟩ " INT. LAB - DAY ").current_scene =
      pyStrip " INT. LAB - DAY " ∧
    (chunkStep ⟨"", "hello\n", [], 0, []⟩ " INT. LAB - DAY ").current_chunk =
      pyStrip " INT. LAB - DAY " ++ "\n" ∧
    (chunkStep ⟨"", "hello\n", [], 0, []⟩ " INT. LAB - DAY ").current_characters = [] ∧
    (chunkStep ⟨"", "hello\n", [], 0, []⟩ " INT. LAB - DAY ").scene_count = 0 + 1 ∧
    (chunkStep ⟨"", "hello\n", [], 0, []⟩ " INT. LAB - DAY ").chunks =
      (if pyStrip (ChunkState.mk "" "hello\n" [] 0 []).current_chunk = ""
       then (ChunkState.mk "" "hello\n" [] 0 []).chunks
       else (ChunkState.mk "" "hello\n" [] 0 []).chunks ++
         [mkChunk (ChunkState.mk "" "hello\n" [] 0 [])]) :=
  chunk_boundary_step ⟨"", "hello\n", [], 0, []⟩ " INT. LAB - DAY " (Or.inl (by decide))

/-- C2 counterexample: `"CUT TO:"` contains the known transition keyword
`CUT` of the parser's filter list, yet `chunk_screenplay` classifies it as a
character cue and records it in the chunk's character set — the claimed
"not a known keyword" condition is absent from `chunk_screenplay`. -/
theorem chunk_keyword_cue_cex :
    (screenplayKeywords.any fun w => pyInStr w "CUT TO:") = true ∧
    chunk_screenplay "CUT TO:" "T" =
      [{ content := "CUT TO:", scene_header := "", characters := ["CUT TO:"],
         scene_number := 0, chunk_type := "scene" }] := by
  decide

/-- C2 amended: in `chunk_screenplay` a trimmed non-boundary line not yet in
the character set is added to it if and only if it is all-uppercase (in
Python's `isupper` sense), has at most 3 whitespace-separated words and is
non-empty — with no keyword exclusion; the keyword filter exists only in
`ScreenplayParser.parse_screenplay`. -/
theorem chunk_character_cue_iff (s : ChunkState) (l : String)
    (hb : sceneBoundary (pyStrip l) = false)
    (hmem : pyStrip l ∉ s.current_characters) :
    (chunkStep s l).current_characters = s.current_characters ++ [pyStrip l] ↔
      (pyIsUpper (pyStrip l) = true ∧ (pyWords (pyStrip l)).length ≤ 3 ∧
        pyStrip l ≠ "") := by
  have hstep : (chunkStep s l).current_characters =
      if isCharacterCue (pyStrip l) then setAdd s.current_characters (pyStrip l)
      else s.current_characters := by
    simp only [chunkStep, hb, Bool.false_eq_true, if_false]
    split <;> rfl
  rw [hstep]
  by_cases hcue : isCharacterCue (pyStrip l) = true
  · rw [if_pos hcue]
    unfold setAdd
    rw [if_neg hmem]
    unfold isCharacterCue at hcue
    simp only [Bool.and_eq_true, decide_eq_true_eq] at hcue
    exact iff_of_true rfl ⟨hcue.1.1, hcue.1.2, hcue.2⟩
  · rw [if_neg hcue]
    constructor
    · intro hEq
      exact absurd hEq (by simp)
    · intro hcond
      refine absurd ?_ hcue
      unfold isCharacterCue
      simp only [Bool.and_eq_true, decide_eq_true_eq]
      exact ⟨⟨hcond.1, hcond.2.1⟩, hcond.2.2⟩

/-- Witness for C2 at a concrete cue line. -/
theorem chunk_character_cue_iff_w :
    (chunkStep initChunkState "ALICE").current_characters =
      initChunkState.current_characters ++ [pyStrip "ALICE"] :=
  (chunk_character_cue_iff initChunkState "ALICE" (by decide) (by decide)).mpr
    (by refine ⟨by decide, by decide, by decide⟩)

/-- Helper: a non-boundary line leaves the emitted chunks and the scene count
unchanged and appends the trimmed line plus a newline to the current chunk. -/
theorem chunkStep_nonboundary (s : ChunkState) (l : String)
    (hb : sceneBoundary (pyStrip l) = false) :
    (chunkStep s l).chunks = s.chunks ∧
    (chunkStep s l).scene_count = s.scene_count ∧
    (chunkStep s l).current_chunk = s.current_chunk ++ pyStrip l ++ "\n" := by
  simp only [chunkStep, hb, Bool.false_eq_true, if_false]
  split <;> exact ⟨rfl, rfl, rfl⟩

/-- Helper: the recursive loop equals a left fold of the step function
followed by the final-chunk emission. -/
theorem chunkLoop_eq_foldl (lines : List String) : ∀ s : ChunkState,
    chunkLoop s lines =
      (lines.foldl chunkStep s).chunks ++
        (if pyStrip (lines.foldl chunkStep s).current_chunk = "" then []
         else [mkChunk (lines.foldl chunkStep s)]) := by
  induction lines with
  | nil =>
    intro s
    simp only [chunkLoop, List.foldl_nil]
    split <;> simp
  | cons l ls ih =>
    intro s
    simp only [chunkLoop, List.foldl_cons]
    exact ih (chunkStep s l)

/-- Helper: the loop step preserves "all emitted scene numbers are below the
scene counter" and the strict ordering of emitted scene numbers. -/
theorem chunkStep_scene_invariant (s : ChunkState) (l : String)
    (hlt : ∀ n ∈ s.chunks.map Chunk.scene_number, n < s.scene_count)
    (hpair : (s.chunks.map Chunk.scene_number).Pairwise (· < ·)) :
    (∀ n ∈ (chunkStep s l).chunks.map Chunk.scene_number,
      n < (chunkStep s l).scene_count) ∧
    ((chunkStep s l).chunks.map Chunk.scene_number).Pairwise (· < ·) := by
  unfold chunkStep
  dsimp only
  split
  · constructor
    · intro n hn
      dsimp only at hn ⊢
      split at hn
      · exact Nat.lt_succ_of_lt (hlt n hn)
      · simp only [List.map_append, List.mem_append] at hn
        rcases hn with hn | hn
        · exact Nat.lt_succ_of_lt (hlt n hn)
        · simp only [mkChunk, List.map_cons, List.map_nil, List.mem_singleton] at hn
          rw [hn]
          exact Nat.lt_succ_self _
    · dsimp only
      split
      · exact hpair
      · rw [List.map_append, List.pairwise_append]
        refine ⟨hpair, by simp, ?_⟩
        intro a ha b hb
        simp only [mkChunk, List.map_cons, List.map_nil, List.mem_singleton] at hb
        rw [hb]
        exact hlt a ha
  · split <;> exact ⟨hlt, hpair⟩

/-- Helper: the loop keeps emitted scene numbers strictly increasing. -/
theorem chunkLoop_pairwise (lines : List String) : ∀ s : ChunkState,
    (∀ n ∈ s.chunks.map Chunk.scene_number, n < s.scene_count) →
    (s.chunks.map Chunk.scene_number).Pairwise (· < ·) →
    ((chunkLoop s lines).map Chunk.scene_number).Pairwise (· < ·) := by
  induction lines with
  | nil =>
    intro s hlt hpair
    simp only [chunkLoop]
    split
    · exact hpair
    · rw [List.map_append, List.pairwise_append]
      refine ⟨hpair, by simp, ?_⟩
      intro a ha b hb
      simp only [mkChunk, List.map_cons, List.map_nil, List.mem_singleton] at hb
      rw [hb]
      exact hlt a ha
  | cons l ls ih =>
    intro s hlt hpair
    simp only [chunkLoop]
    obtain ⟨h1, h2⟩ := chunkStep_scene_invariant s l hlt hpair
    exact ih (chunkStep s l) h1 h2

/-- C3: `chunk_screenplay` is a single input-order pass: a non-boundary line
only appends its trimmed text to the current chunk (the emitted chunks are
untouched), the whole function is the left fold of the loop step with a final
emission that happens exactly when the remaining stripped content is
non-empty, and the emitted chunks carry strictly increasing scene numbers, so
they appear in the order their scene boundaries occur in the input. -/
theorem chunk_single_pass :
    (∀ (s : ChunkState) (l : String), sceneBoundary (pyStrip l) = false →
      (chunkStep s l).chunks = s.chunks ∧
      (chunkStep s l).current_chunk = s.current_chunk ++ pyStrip l ++ "\n") ∧
    (∀ (s : ChunkState) (lines : List String),
      chunkLoop s lines =
        (lines.foldl chunkStep s).chunks ++
          (if pyStrip (lines.foldl chunkStep s).current_chunk = "" then []
           else [mkChunk (lines.foldl chunkStep s)])) ∧
    (∀ content title,
      ((chunk_screenplay content title).map Chunk.scene_number).Pairwise (· < ·)) := by
  refine ⟨?_, ?_, ?_⟩
  · intro s l hb
    obtain ⟨h1, -, h3⟩ := chunkStep_nonboundary s l hb
    exact ⟨h1, h3⟩
  · intro s lines
    exact chunkLoop_eq_foldl lines s
  · intro content title
    exact chunkLoop_pairwise _ initChunkState (by simp [initChunkState])
      (by simp [initChunkState])

/-- Witness for C3 at a concrete non-boundary line. -/
theorem chunk_single_pass_w :
    (chunkStep initChunkState "hello").chunks = initChunkState.chunks ∧
    (chunkStep initChunkState "hello").current_chunk =
      initChunkState.current_chunk ++ pyStrip "hello" ++ "\n" :=
  chunk_single_pass.1 initChunkState "hello" (by decide)

/-- Helper: lookup across a dict append. -/
theorem alookup_append {α : Type} (c : String) (m₁ m₂ : List (String × α)) :
    alookup c (m₁ ++ m₂) =
      match alookup c m₁ with
      | some v => some v
      | none => alookup c m₂ := by
  induction m₁ with
  | nil => rfl
  | cons p rest ih =>
    obtain ⟨k, v⟩ := p
    simp only [List.cons_append, alookup]
    by_cases hk : k = c
    · simp [hk]
    · simp [hk, ih]

/-- Helper: `bumpChar` at the bumped key. -/
theorem alookup_bumpChar_self (x : String) (n : Nat) (m : List (String × CharEntry)) :
    alookup x (bumpChar x n m) =
      (alookup x m).map fun e => { mentions := e.mentions + 1, scenes := e.scenes ++ [n] } := by
  induction m with
  | nil => rfl
  | cons p rest ih =>
    obtain ⟨k, e⟩ := p
    simp only [bumpChar]
    by_cases hk : k = x
    · simp [alookup, hk]
    · simp [alookup, hk, ih]

/-- Helper: `bumpChar` leaves the other keys unchanged. -/
theorem alookup_bumpChar_ne (c x : String) (n : Nat) (m : List (String × CharEntry))
    (h : c ≠ x) :
    alookup c (bumpChar x n m) = alookup c m := by
  induction m with
  | nil => rfl
  | cons p rest ih =>
    obtain ⟨k, e⟩ := p
    simp only [bumpChar]
    by_cases hk : k = x
    · have hxc : ¬(x = c) := fun hx => h hx.symm
      simp [alookup, hk, hxc]
    · simp only [hk, if_false]
      simp only [alookup]
      by_cases hkc : k = c
      · simp [hkc]
      · simp [hkc, ih]

/-- Helper: the effect of processing one character name on the lookup of any
key. -/
theorem alookup_charStep (m : List (String × CharEntry)) (c x : String) (n : Nat) :
    alookup c (charStep m x n) =
      if x = c then
        some { mentions := mentionsOf m c + 1, scenes := scenesOf m c ++ [n] }
      else alookup c m := by
  by_cases hxc : x = c
  · subst hxc
    rw [if_pos rfl]
    unfold charStep
    by_cases habs : (alookup x m).isNone
    · rw [if_pos habs]
      rw [alookup_bumpChar_self, alookup_append]
      have hnone : alookup x m = none := Option.isNone_iff_eq_none.mp habs
      rw [hnone]
      simp [alookup, mentionsOf, scenesOf, hnone]
    · rw [if_neg habs]
      rw [alookup_bumpChar_self]
      cases h : alookup x m with
      | none => rw [h] at habs; simp at habs
      | some e => simp [mentionsOf, scenesOf, h]
  · rw [if_neg hxc]
    unfold charStep
    have hcx : c ≠ x := fun hc => hxc hc.symm
    by_cases habs : (alookup x m).isNone
    · rw [if_pos habs]
      rw [alookup_bumpChar_ne c x n _ hcx, alookup_append]
      cases h : alookup c m with
      | none => simp [alookup, hxc]
      | some e => simp
    · rw [if_neg habs]
      exact alookup_bumpChar_ne c x n m hcx

/-- Helper: mention count after one `charStep`. -/
theorem mentionsOf_charStep (m : List (String × CharEntry)) (c x : String) (n : Nat) :
    mentionsOf (charStep m x n) c = mentionsOf m c + (if x = c then 1 else 0) := by
  unfold mentionsOf
  rw [alookup_charStep]
  by_cases h : x = c
  · simp [h, mentionsOf]
  · simp [h]

/-- Helper: scene list after one `charStep`. -/
theorem scenesOf_charStep (m : List (String × CharEntry)) (c x : String) (n : Nat) :
    scenesOf (charStep m x n) c = scenesOf m c ++ (if x = c then [n] else []) := by
  unfold scenesOf
  rw [alookup_charStep]
  by_cases h : x = c
  · simp [h, scenesOf]
  · simp [h]

/-- Helper: mention count after folding one chunk's character list. -/
theorem mentionsOf_charFold (cs : List String) (n : Nat) :
    ∀ (m : List (String × CharEntry)) (c : String),
      mentionsOf (cs.foldl (fun acc ch => charStep acc ch n) m) c =
        mentionsOf m c + cs.count c := by
  induction cs with
  | nil =>
    intro m c
    simp
  | cons x cs ih =>
    intro m c
    simp only [List.foldl_cons]
    rw [ih, mentionsOf_charStep, List.count_cons]
    by_cases h : x = c
    · simp [h]
      omega
    · simp [h]

/-- Helper: scene list after folding one chunk's character list. -/
theorem scenesOf_charFold (cs : List String) (n : Nat) :
    ∀ (m : List (String × CharEntry)) (c : String),
      scenesOf (cs.foldl (fun acc ch => charStep acc ch n) m) c =
        scenesOf m c ++ List.replicate (cs.count c) n := by
  induction cs with
  | nil =>
    intro m c
    simp
  | cons x cs ih =>
    intro m c
    simp only [List.foldl_cons]
    rw [ih, scenesOf_charStep, List.count_cons]
    by_cases h : x = c
    · simp [h, List.replicate_succ, List.append_assoc]
    · simp [h]

/-- Helper: the characters dict of the entity fold is the fold of the
per-chunk character folds. -/
theorem characters_entityFold (chunks : List Chunk) : ∀ ent : Entities,
    (chunks.foldl entityStep ent).characters =
      chunks.foldl
        (fun m ch => ch.characters.foldl (fun acc c => charStep acc c ch.scene_number) m)
        ent.characters := by
  induction chunks with
  | nil => intro ent; rfl
  | cons ch chunks ih =>
    intro ent
    simp only [List.foldl_cons]
    rw [ih]
    rfl

/-- Helper: mention count over the whole chunk fold. -/
theorem mentionsOf_chunkFold (chunks : List Chunk) :
    ∀ (m : List (String × CharEntry)) (c : String),
      mentionsOf
        (chunks.foldl
          (fun m ch => ch.characters.foldl (fun acc c' => charStep acc c' ch.scene_number) m)
          m) c =
        mentionsOf m c + (chunks.map fun ch => ch.characters.count c).sum := by
  induction chunks with
  | nil =>
    intro m c
    simp
  | cons ch chunks ih =>
    intro m c
    simp only [List.foldl_cons, List.map_cons, List.sum_cons]
    rw [ih, mentionsOf_charFold]
    omega

/-- Helper: scene list over the whole chunk fold. -/
theorem scenesOf_chunkFold (chunks : List Chunk) :
    ∀ (m : List (String × CharEntry)) (c : String),
      scenesOf
        (chunks.foldl
          (fun m ch => ch.characters.foldl (fun acc c' => charStep acc c' ch.scene_number) m)
          m) c =
        scenesOf m c ++
          (chunks.map fun ch =>
            List.replicate (ch.characters.count c) ch.scene_number).flatten := by
  induction chunks with
  | nil =>
    intro m c
    simp
  | cons ch chunks ih =>
    intro m c
    simp only [List.foldl_cons, List.map_cons, List.flatten_cons]
    rw [ih, scenesOf_charFold, List.append_assoc]

/-- Helper: under per-chunk duplicate-freeness the total count of a character
is the number of chunks that contain it. -/
theorem sum_count_nodup (chunks : List Chunk) (c : String)
    (h : ∀ ch ∈ chunks, ch.characters.Nodup) :
    (chunks.map fun ch => ch.characters.count c).sum =
      (chunks.filter fun ch => decide (c ∈ ch.characters)).length := by
  induction chunks with
  | nil => simp
  | cons ch chunks ih =>
    simp only [List.map_cons, List.sum_cons, List.filter_cons]
    rw [ih (fun x hx => h x (List.mem_cons_of_mem _ hx))]
    by_cases hc : c ∈ ch.characters
    · have h1 : ch.characters.count c = 1 :=
        List.count_eq_one_of_mem (h ch (List.mem_cons_self _ _)) hc
      simp [hc, h1]
      omega
    · have h0 : ch.characters.count c = 0 := List.count_eq_zero_of_not_mem hc
      simp [hc, h0]

/-- Helper: the loop step keeps the working character set and all emitted
character lists duplicate-free (characters come from a Python `set`). -/
theorem chunkStep_nodup_invariant (s : ChunkState) (l : String)
    (hcur : s.current_characters.Nodup)
    (hall : ∀ ch ∈ s.chunks, ch.characters.Nodup) :
    (chunkStep s l).current_characters.Nodup ∧
    ∀ ch ∈ (chunkStep s l).chunks, ch.characters.Nodup := by
  unfold chunkStep
  dsimp only
  split
  · refine ⟨List.nodup_nil, ?_⟩
    intro ch hch
    dsimp only at hch
    split at hch
    · exact hall ch hch
    · rcases List.mem_append.mp hch with h | h
      · exact hall ch h
      · simp only [List.mem_singleton] at h
        rw [h]
        exact hcur
  · split
    · constructor
      · unfold setAdd
        split
        · exact hcur
        · rw [List.nodup_append]
          refine ⟨hcur, List.nodup_singleton _, ?_⟩
          intro a ha hb
          simp only [List.mem_singleton] at hb
          rw [hb] at ha
          exact absurd ha (by assumption)
      · exact hall
    · exact ⟨hcur, hall⟩

/-- Helper: every chunk produced by the loop has a duplicate-free character
list. -/
theorem chunkLoop_nodup (lines : List String) : ∀ s : ChunkState,
    s.current_characters.Nodup →
    (∀ ch ∈ s.chunks, ch.characters.Nodup) →
    ∀ ch ∈ chunkLoop s lines, ch.characters.Nodup := by
  induction lines with
  | nil =>
    intro s hcur hall ch hch
    simp only [chunkLoop] at hch
    split at hch
    · exact hall ch hch
    · rcases List.mem_append.mp hch with h | h
      · exact hall ch h
      · simp only [List.mem_singleton] at h
        rw [h]
        exact hcur
  | cons l ls ih =>
    intro s hcur hall
    simp only [chunkLoop]
    obtain ⟨h1, h2⟩ := chunkStep_nodup_invariant s l hcur hall
    exact ih (chunkStep s l) h1 h2

/-- C9: for every chunk list, every character entry of `extract_entities` has
a mention count equal to the length of its scene list; when every chunk's
character list is duplicate-free — which `chunk_screenplay` always produces,
since the characters of a chunk come from a set — the mention count equals
the number of chunks in which the character appears, regardless of how often
the character occurred inside a chunk's text. -/
theorem entities_char_mentions_scenes (chunks : List Chunk) (c : String) (e : CharEntry)
    (he : alookup c (extract_entities chunks).characters = some e) :
    e.mentions = e.scenes.length ∧
    ((∀ ch ∈ chunks, ch.characters.Nodup) →
      e.mentions = (chunks.filter fun ch => decide (c ∈ ch.characters)).length) ∧
    (∀ content title ch, ch ∈ chunk_screenplay content title → ch.characters.Nodup) := by
  have hchars : (extract_entities chunks).characters =
      chunks.foldl
        (fun m ch => ch.characters.foldl (fun acc c' => charStep acc c' ch.scene_number) m)
        [] := by
    unfold extract_entities
    exact characters_entityFold chunks ⟨[], []⟩
  have hm : e.mentions = (chunks.map fun ch => ch.characters.count c).sum := by
    have := mentionsOf_chunkFold chunks [] c
    rw [← hchars] at this
    unfold mentionsOf at this
    rw [he] at this
    simpa [mentionsOf, alookup] using this
  have hs : e.scenes =
      (chunks.map fun ch =>
        List.replicate (ch.characters.count c) ch.scene_number).flatten := by
    have := scenesOf_chunkFold chunks [] c
    rw [← hchars] at this
    unfold scenesOf at this
    rw [he] at this
    simpa [scenesOf, alookup] using this
  refine ⟨?_, ?_, ?_⟩
  · rw [hm, hs, List.length_flatten]
    congr 1
    rw [List.map_map]
    congr 1
    funext ch
    simp
  · intro hnodup
    rw [hm]
    exact sum_count_nodup chunks c hnodup
  · intro content title ch hch
    exact chunkLoop_nodup _ initChunkState (by simp [initChunkState])
      (by simp [initChunkState]) ch hch

/-- Witness for C9 on the sample screenplay: ALICE appears in both scenes. -/
theorem entities_char_mentions_scenes_w :
    alookup "ALICE"
        (extract_entities (chunk_screenplay sampleScreenplay "Test")).characters =
      some { mentions := 2, scenes := [1, 2] } ∧
    ({ mentions := 2, scenes := [1, 2] } : CharEntry).mentions =
      ({ mentions := 2, scenes := [1, 2] } : CharEntry).scenes.length :=
  ⟨by decide,
    (entities_char_mentions_scenes (chunk_screenplay sampleScreenplay "Test")
      "ALICE" ⟨2, [1, 2]⟩ (by decide)).1⟩

/-- Helper: `locStep` only ever inserts fresh singleton entries. -/
theorem locStep_singleton (m : List (String × LocEntry)) (header : String) (n : Nat)
    (H : ∀ k e, alookup k m = some e → e.scenes.length = 1 ∧ e.loc_type = "location") :
    ∀ k e, alookup k (locStep m header n) = some e →
      e.scenes.length = 1 ∧ e.loc_type = "location" := by
  intro k e hk
  unfold locStep at hk
  dsimp only at hk
  split_ifs at hk with h1 h2
  · exact H k e hk
  · rw [alookup_append] at hk
    cases hm : alookup k m with
    | some e' =>
      rw [hm] at hk
      injection hk with h
      rw [← h]
      exact H k e' hm
    | none =>
      rw [hm] at hk
      simp only [alookup] at hk
      split_ifs at hk with h3
      injection hk with h
      rw [← h]
      exact ⟨rfl, rfl⟩
  · exact H k e hk

/-- Helper: `locStep` never modifies an existing entry. -/
theorem locStep_keeps (m : List (String × LocEntry)) (header : String) (n : Nat)
    (k : String) (e : LocEntry) (hk : alookup k m = some e) :
    alookup k (locStep m header n) = some e := by
  unfold locStep
  dsimp only
  split_ifs with h1 h2
  · exact hk
  · rw [alookup_append, hk]
  · exact hk

/-- Helper: the invariant over the whole entity fold. -/
theorem locations_entityFold (chunks : List Chunk) : ∀ ent : Entities,
    (∀ k e, alookup k ent.locations = some e →
      e.scenes.length = 1 ∧ e.loc_type = "location") →
    ∀ k e, alookup k (chunks.foldl entityStep ent).locations = some e →
      e.scenes.length = 1 ∧ e.loc_type = "location" := by
  induction chunks with
  | nil =>
    intro ent H
    exact H
  | cons ch chunks ih =>
    intro ent H
    simp only [List.foldl_cons]
    exact ih (entityStep ent ch) (locStep_singleton ent.locations ch.scene_header
      ch.scene_number H)

/-- C10: every location entry of `extract_entities` carries a scene list of
length exactly one (and type `"location"`): a location is recorded only the
first time its name is derived from a scene header, and `locStep` never
modifies an existing entry, so later chunks with the same location never
extend its scene list. -/
theorem entities_loc_singleton (chunks : List Chunk) (loc : String) (e : LocEntry)
    (he : alookup loc (extract_entities chunks).locations = some e) :
    (e.scenes.length = 1 ∧ e.loc_type = "location") ∧
    (∀ (m : List (String × LocEntry)) (header : String) (n : Nat) (e' : LocEntry),
      alookup loc m = some e' → alookup loc (locStep m header n) = some e') := by
  constructor
  · refine locations_entityFold chunks ⟨[], []⟩ ?_ loc e he
    intro k e' h
    simp [alookup] at h
  · intro m header n e' h
    exact locStep_keeps m header n loc e' h

/-- Witness for C10 on the sample screenplay: the location `LAB` is derived
from the first scene header and keeps a one-element scene list. -/
theorem entities_loc_singleton_w :
    alookup "LAB"
        (extract_entities (chunk_screenplay sampleScreenplay "Test")).locations =
      some { loc_type := "location", scenes := [1] } ∧
    (({ loc_type := "location", scenes := [1] } : LocEntry).scenes.length = 1 ∧
      ({ loc_type := "location", scenes := [1] } : LocEntry).loc_type = "location") :=
  ⟨by decide,
    (entities_loc_singleton (chunk_screenplay sampleScreenplay "Test")
      "LAB" ⟨"location", [1]⟩ (by decide)).1⟩
